import Mathlib

/-!
Shallow embedding of the netemlite UDP network simulation.

The Go program has two parts:
* `network.go`: a single-threaded actor owning `udp : map[netip.AddrPort]*networkConnStateUDP`,
  processing bind/unbind/read/write requests one at a time.
* the UDP connection file: a client-side handle translating Read/Write/ReadFrom/WriteTo
  into actor requests raced against close signals and deadline timers.

Addresses (`netip.AddrPort`) are modelled as `Nat`; the zero (invalid) `AddrPort`
used for the optional peer address is modelled as `Option Addr` with `none` invalid.
Byte slices are `List Nat`.  Each request's `ack` channel identity is a `Nat` id.
-/

namespace Netemlite

abbrev Addr := Nat

/-- The error values the Go code uses: `syscall.EADDRNOTAVAIL` (bind collision,
the spec's `AddressInUse`), `syscall.EBADF` (the spec's `BadDescriptor`),
`syscall.ENOTCONN` / `syscall.EISCONN` (mode misuse), `syscall.EINVAL`,
`net.ErrClosed` (the spec's `Closed`) and `os.ErrDeadlineExceeded`. -/
inductive NetErr where
  | EADDRNOTAVAIL
  | EBADF
  | ENOTCONN
  | EISCONN
  | EINVAL
  | ErrClosed
  | ErrDeadlineExceeded
deriving DecidableEq, Repr

/-- A `networkReadUDP` request as the client creates it: the `ack` channel is the
`id`, the output fields (`count`, `err`, `senderAddr`) are produced by the actor
and live in `Resolution`. -/
structure NetworkReadUDP where
  id : Nat
  buffer : List Nat
  localAddr : Addr
deriving DecidableEq, Repr

/-- A `networkWriteUDP` request as the client creates it. -/
structure NetworkWriteUDP where
  id : Nat
  destAddr : Addr
  payload : List Nat
  sourceAddr : Addr
deriving DecidableEq, Repr

/-- A `networkNewConnUDP` request (bind). -/
structure NetworkNewConnUDP where
  localAddr : Addr
deriving DecidableEq, Repr

/-- A `networkDeleteConnUDP` request (unbind). -/
structure NetworkDeleteConnUDP where
  localAddr : Addr
deriving DecidableEq, Repr

/-- The state of one bound UDP address: `networkConnStateUDP` in the Go code. -/
structure NetworkConnStateUDP where
  blockedReads : List NetworkReadUDP
  blockedWrites : List NetworkWriteUDP
deriving DecidableEq, Repr

/-- The actor's `udp` map, as an association list with unique keys
(the Go map's key set; lookup takes the first matching entry). -/
abbrev UdpMap := List (Addr × NetworkConnStateUDP)

/-- Lookup in the `udp` map (`n.udp[a]`, `nil` when missing). -/
def udpFind : UdpMap → Addr → Option NetworkConnStateUDP
  | [], _ => none
  | (b, s) :: rest, a => if a = b then some s else udpFind rest a

/-- Insertion of a fresh key (`n.udp[a] = s` when `a` is not yet present). -/
def udpInsert (m : UdpMap) (a : Addr) (s : NetworkConnStateUDP) : UdpMap :=
  (a, s) :: m

/-- In-place update of an existing key (mutation of `*n.udp[a]`). -/
def udpUpdate : UdpMap → Addr → NetworkConnStateUDP → UdpMap
  | [], _, _ => []
  | (b, t) :: rest, a, s =>
    if b = a then (b, s) :: udpUpdate rest a s else (b, t) :: udpUpdate rest a s

/-- Removal of a key (`delete(n.udp, a)`). -/
def udpErase : UdpMap → Addr → UdpMap
  | [], _ => []
  | (b, s) :: rest, a => if b = a then udpErase rest a else (b, s) :: udpErase rest a

/-- Closing an `ack` channel together with the output fields the actor wrote
into the request beforehand: a write is acknowledged bare (the actor never sets
`err` on writes), a read carries `count`, the final `buffer` contents,
`senderAddr` and `err`; bind and unbind acknowledgements carry `err`. -/
inductive Resolution where
  | ackWrite (id : Nat)
  | ackRead (id : Nat) (count : Nat) (buffer : List Nat) (sender : Option Addr) (err : Option NetErr)
  | ackNewConn (err : Option NetErr)
  | ackDeleteConn (err : Option NetErr)
deriving DecidableEq, Repr

/-- Go's `copy(dst, src)` return value: `min(len(dst), len(src))`. -/
def copyCount (dst src : List Nat) : Nat :=
  min dst.length src.length

/-- The contents of `dst` after Go's `copy(dst, src)`: the copied prefix of
`src` followed by the untouched tail of `dst`. -/
def copyInto (dst src : List Nat) : List Nat :=
  src.take (copyCount dst src) ++ dst.drop (copyCount dst src)

/-- `finishReadWrite`: copy bytes from the writer into the reader's buffer,
unblock the writer, record the sender, unblock the reader (in that order). -/
def finishReadWrite (read : NetworkReadUDP) (write : NetworkWriteUDP) : List Resolution :=
  [Resolution.ackWrite write.id,
   Resolution.ackRead read.id (copyCount read.buffer write.payload)
     (copyInto read.buffer write.payload) (some write.sourceAddr) none]

/-- `onNewConnUDP`: fail with `EADDRNOTAVAIL` when state already exists,
otherwise track a fresh empty state; the acknowledgement always happens. -/
def onNewConnUDP (m : UdpMap) (req : NetworkNewConnUDP) : UdpMap × Option NetErr :=
  match udpFind m req.localAddr with
  | some _ => (m, some NetErr.EADDRNOTAVAIL)
  | none => (udpInsert m req.localAddr ⟨[], []⟩, none)

/-- `onReadUDP`: `EBADF` when the local address is not bound; park the read
when no write is blocked; otherwise pop the oldest blocked write and finish. -/
def onReadUDP (m : UdpMap) (read : NetworkReadUDP) : UdpMap × List Resolution :=
  match udpFind m read.localAddr with
  | none => (m, [Resolution.ackRead read.id 0 read.buffer none (some NetErr.EBADF)])
  | some source =>
    match source.blockedWrites with
    | [] =>
      (udpUpdate m read.localAddr ⟨source.blockedReads ++ [read], source.blockedWrites⟩, [])
    | write :: rest =>
      (udpUpdate m read.localAddr ⟨source.blockedReads, rest⟩, finishReadWrite read write)

/-- `onWriteUDP`: silently drop (still acknowledging success) when the
destination is not bound; park the write when no read is blocked; otherwise
pop the oldest blocked read and finish. -/
def onWriteUDP (m : UdpMap) (write : NetworkWriteUDP) : UdpMap × List Resolution :=
  match udpFind m write.destAddr with
  | none => (m, [Resolution.ackWrite write.id])
  | some dest =>
    match dest.blockedReads with
    | [] =>
      (udpUpdate m write.destAddr ⟨dest.blockedReads, dest.blockedWrites ++ [write]⟩, [])
    | read :: rest =>
      (udpUpdate m write.destAddr ⟨rest, dest.blockedWrites⟩, finishReadWrite read write)

/-- `onDeleteConnUDP`: `EBADF` when the address is not bound, otherwise forget
its state; the acknowledgement always happens. -/
def onDeleteConnUDP (m : UdpMap) (req : NetworkDeleteConnUDP) : UdpMap × Option NetErr :=
  match udpFind m req.localAddr with
  | none => (m, some NetErr.EBADF)
  | some _ => (udpErase m req.localAddr, none)

/-- One request drawn from one of the four actor channels. -/
inductive NetworkRequest where
  | newConnUDP (req : NetworkNewConnUDP)
  | deleteConnUDP (req : NetworkDeleteConnUDP)
  | readUDP (req : NetworkReadUDP)
  | writeUDP (req : NetworkWriteUDP)
deriving DecidableEq, Repr

/-- One iteration of the actor `loop`: dispatch the request to its handler and
collect every acknowledgement the handler produces. -/
def networkStep (m : UdpMap) : NetworkRequest → UdpMap × List Resolution
  | NetworkRequest.newConnUDP req =>
    let r := onNewConnUDP m req
    (r.1, [Resolution.ackNewConn r.2])
  | NetworkRequest.deleteConnUDP req =>
    let r := onDeleteConnUDP m req
    (r.1, [Resolution.ackDeleteConn r.2])
  | NetworkRequest.readUDP req => onReadUDP m req
  | NetworkRequest.writeUDP req => onWriteUDP m req

/-- At most one of the two queues of a bound address is non-empty. -/
def connInvariant (s : NetworkConnStateUDP) : Prop :=
  s.blockedReads = [] ∨ s.blockedWrites = []

/-- Every address state in the actor's map satisfies `connInvariant`. -/
def mapInvariant (m : UdpMap) : Prop :=
  ∀ p ∈ m, connInvariant p.2

/-! ## Client side: the UDP connection handle -/

/-- The `pipeDeadline` pair of a connection: absolute times, `none` meaning the
zero `time.Time`, which disables the timeout. -/
structure ConnDeadlines where
  readDeadline : Option Nat
  writeDeadline : Option Nat
deriving DecidableEq, Repr

/-- `SetReadDeadline`: update the read deadline timer. -/
def setReadDeadline (c : ConnDeadlines) (t : Option Nat) : ConnDeadlines :=
  { c with readDeadline := t }

/-- `SetWriteDeadline`: update the write deadline timer. -/
def setWriteDeadline (c : ConnDeadlines) (t : Option Nat) : ConnDeadlines :=
  { c with writeDeadline := t }

/-- `SetDeadline`: `SetReadDeadline` then `SetWriteDeadline`. -/
def setDeadline (c : ConnDeadlines) (t : Option Nat) : ConnDeadlines :=
  setWriteDeadline (setReadDeadline c t) t

/-- Whether a `pipeDeadline.wait()` channel is ready at time `now`: a timer set
to a point at or before `now` has fired, a disabled timer never fires. -/
def deadlineFired (d : Option Nat) (now : Nat) : Bool :=
  match d with
  | none => false
  | some t => decide (t ≤ now)

/-- The readiness, at one observation instant, of the four signals a blocked
connection call races: the handle's own `closed` channel, the Network's
`closed` channel, and the two deadline `wait()` channels. -/
structure ConnSignals where
  connClosed : Bool
  netClosed : Bool
  readDeadlineFired : Bool
  writeDeadlineFired : Bool
deriving DecidableEq, Repr

/-- The signals of a connection with deadlines `dl` observed at time `now`. -/
def connSignalsAt (connClosed netClosed : Bool) (dl : ConnDeadlines) (now : Nat) : ConnSignals :=
  ⟨connClosed, netClosed, deadlineFired dl.readDeadline now, deadlineFired dl.writeDeadline now⟩

/-- What the actor wrote into a `networkReadUDP` request before closing its
`ack` channel. -/
structure ReadAck where
  count : Nat
  senderAddr : Option Addr
  err : Option NetErr
deriving DecidableEq, Repr

/-- `commonRead`: the two nested selects, determinized by source order.  `pre`
is the signal state while trying to submit the request, `post` while awaiting
the acknowledgement, `ack` the actor's answer when it is reached.  Both selects
race the handle's `closed`, the Network's `closed` and `c.readDeadline.wait()`. -/
def commonRead (pre post : ConnSignals) (ack : ReadAck) : Except NetErr (Nat × Option Addr) :=
  if pre.connClosed then Except.error NetErr.ErrClosed
  else if pre.netClosed then Except.error NetErr.ErrClosed
  else if pre.readDeadlineFired then Except.error NetErr.ErrDeadlineExceeded
  else if post.connClosed then Except.error NetErr.ErrClosed
  else if post.netClosed then Except.error NetErr.ErrClosed
  else if post.readDeadlineFired then Except.error NetErr.ErrDeadlineExceeded
  else
    match ack.err with
    | some e => Except.error e
    | none => Except.ok (ack.count, ack.senderAddr)

/-- `commonWrite`: the two nested selects, determinized by source order.  The
deadline channel both selects race is `c.readDeadline.wait()` (source lines 302
and 315): the write deadline timer is never consulted.  On acknowledgement the
call returns `len(data)` and `req.err` (which the actor never sets on writes). -/
def commonWrite (pre post : ConnSignals) (dataLen : Nat) (ackErr : Option NetErr) :
    Except NetErr Nat :=
  if pre.connClosed then Except.error NetErr.ErrClosed
  else if pre.netClosed then Except.error NetErr.ErrClosed
  else if pre.readDeadlineFired then Except.error NetErr.ErrDeadlineExceeded
  else if post.connClosed then Except.error NetErr.ErrClosed
  else if post.netClosed then Except.error NetErr.ErrClosed
  else if post.readDeadlineFired then Except.error NetErr.ErrDeadlineExceeded
  else
    match ackErr with
    | some e => Except.error e
    | none => Except.ok dataLen

/-- The `for` loop in `Read`, over the stream of successive `commonRead`
results: stop on the first error, skip a datagram whose sender is not the
configured peer, return the count of the first matching datagram.  `none`
means the loop is still blocked after consuming the whole stream. -/
def readLoop (peer : Addr) : List (Except NetErr (Nat × Option Addr)) → Option (Except NetErr Nat)
  | [] => none
  | Except.error e :: _ => some (Except.error e)
  | Except.ok (count, source) :: rest =>
    if source = some peer then some (Except.ok count) else readLoop peer rest

/-- `Read`: `ENOTCONN` when no peer is configured, otherwise the retry loop
over `commonRead` results. -/
def connRead (peerAddr : Option Addr) (results : List (Except NetErr (Nat × Option Addr))) :
    Option (Except NetErr Nat) :=
  match peerAddr with
  | none => some (Except.error NetErr.ENOTCONN)
  | some peer => readLoop peer results

/-- The fields of a constructed `UDPConn` that the embedding tracks. -/
structure UDPConnFields where
  localAddr : Addr
  peerAddr : Option Addr
deriving DecidableEq, Repr

/-- `NewUDPConn`: when the Network is closed the select takes the shutdown
branch and fails `net.ErrClosed`; otherwise the bind request is processed by
`onNewConnUDP` and its error (if any) is returned to the caller. -/
def newUDPConn (netClosed : Bool) (m : UdpMap) (localAddr : Addr) (peerAddr : Option Addr) :
    UdpMap × Except NetErr UDPConnFields :=
  if netClosed then (m, Except.error NetErr.ErrClosed)
  else
    let r := onNewConnUDP m ⟨localAddr⟩
    match r.2 with
    | some e => (r.1, Except.error e)
    | none => (r.1, Except.ok ⟨localAddr, peerAddr⟩)

/-- `UDPConn.Close`: under `sync.Once`, a repeated call does nothing; the first
call sends the unbind request unless the Network is already closed (in which
case the request is abandoned unprocessed), then closes the handle's `closed`
channel; the returned error is always `nil`.  The result is the actor map, the
handle's `closed` flag afterwards, and the returned error. -/
def connClose (onceDone netClosed : Bool) (m : UdpMap) (localAddr : Addr) :
    UdpMap × Bool × Option NetErr :=
  if onceDone then (m, true, none)
  else if netClosed then (m, true, none)
  else ((onDeleteConnUDP m ⟨localAddr⟩).1, true, none)

/-- The `Network` value: the `closed` channel and the `sync.Once` guard of
`Close`, plus the actor map. -/
structure NetworkState where
  closed : Bool
  onceDone : Bool
  udp : UdpMap
deriving DecidableEq, Repr

/-- `Network.Close`: `once.Do(close(n.closed))`; always returns `nil`. -/
def networkClose (n : NetworkState) : NetworkState × Option NetErr :=
  if n.onceDone then (n, none)
  else ({ n with closed := true, onceDone := true }, none)

/-- The round-trip scenario: starting from an empty actor, bind `A` then `B`,
process a write of payload `P` from `A` to `B`, then a read at `B` with buffer
`buf`.  The write parks, the read pops it and both resolve: the read gets
`min (buf.length) (P.length)` bytes, the sender is recorded as `A`, and `B`'s
queues end empty (the truncated excess is not buffered for later). -/
def roundTripSpec (A B idW idR : Nat) (P buf : List Nat) : Prop :=
  let m1 := (onNewConnUDP [] ⟨A⟩).1
  let m2 := (onNewConnUDP m1 ⟨B⟩).1
  let s3 := onWriteUDP m2 ⟨idW, B, P, A⟩
  let s4 := onReadUDP s3.1 ⟨idR, buf, B⟩
  s3.2 = [] ∧
  s4.2 = [Resolution.ackWrite idW,
          Resolution.ackRead idR (copyCount buf P) (copyInto buf P) (some A) none] ∧
  udpFind s4.1 B = some ⟨[], []⟩ ∧
  (P.length ≤ buf.length → copyCount buf P = P.length ∧ (copyInto buf P).take P.length = P) ∧
  (buf.length ≤ P.length → copyCount buf P = buf.length ∧ copyInto buf P = P.take buf.length)

/-- The FIFO scenario: with `dst` bound and both queues empty, process writes
`w1` then `w2` to `dst` (both park, in order), then reads `r1` then `r2` at
`dst`: `r1` resolves with `w1`'s payload and sender, `r2` with `w2`'s. -/
def fifoSpec (m : UdpMap) (w1 w2 : NetworkWriteUDP) (r1 r2 : NetworkReadUDP) : Prop :=
  let s1 := onWriteUDP m w1
  let s2 := onWriteUDP s1.1 w2
  let s3 := onReadUDP s2.1 r1
  let s4 := onReadUDP s3.1 r2
  s1.2 = [] ∧ s2.2 = [] ∧
  s3.2 = [Resolution.ackWrite w1.id,
          Resolution.ackRead r1.id (copyCount r1.buffer w1.payload)
            (copyInto r1.buffer w1.payload) (some w1.sourceAddr) none] ∧
  s4.2 = [Resolution.ackWrite w2.id,
          Resolution.ackRead r2.id (copyCount r2.buffer w2.payload)
            (copyInto r2.buffer w2.payload) (some w2.sourceAddr) none]

/-- The shutdown scenario: the first `Network.Close` returns no error and
raises the shutdown signal, a repeated `Close` changes nothing and returns no
error, and once the Network is closed a bind fails `ErrClosed` with the map
untouched, an unbind is abandoned with the map untouched, and a receive or a
send fails `ErrClosed`. -/
def shutdownSpec (n : NetworkState) (m : UdpMap) (a : Addr) (p : Option Addr)
    (pre post : ConnSignals) (ack : ReadAck) (dataLen : Nat) (ackErr : Option NetErr) : Prop :=
  (networkClose n).2 = none ∧
  (networkClose n).1.closed = true ∧
  networkClose (networkClose n).1 = ((networkClose n).1, none) ∧
  newUDPConn true m a p = (m, Except.error NetErr.ErrClosed) ∧
  connClose false true m a = (m, true, none) ∧
  commonRead pre post ack = Except.error NetErr.ErrClosed ∧
  commonWrite pre post dataLen ackErr = Except.error NetErr.ErrClosed

/-! ## Lemmas about the map operations -/

theorem udpFind_mem {m : UdpMap} {a : Addr} {s : NetworkConnStateUDP}
    (h : udpFind m a = some s) : (a, s) ∈ m := by
  induction m with
  | nil => simp [udpFind] at h
  | cons p rest ih =>
    obtain ⟨b, t⟩ := p
    simp only [udpFind] at h
    by_cases hab : a = b
    · subst hab
      rw [if_pos rfl] at h
      injection h with h
      subst h
      exact List.mem_cons_self _ _
    · rw [if_neg hab] at h
      exact List.mem_cons_of_mem _ (ih h)

theorem mem_udpUpdate {m : UdpMap} {a : Addr} {s : NetworkConnStateUDP}
    {p : Addr × NetworkConnStateUDP} (h : p ∈ udpUpdate m a s) : p.2 = s ∨ p ∈ m := by
  induction m with
  | nil => simp [udpUpdate] at h
  | cons q rest ih =>
    obtain ⟨b, t⟩ := q
    simp only [udpUpdate] at h
    by_cases hba : b = a
    · rw [if_pos hba] at h
      rcases List.mem_cons.1 h with h1 | h1
      · left
        rw [h1]
      · rcases ih h1 with h2 | h2
        · exact Or.inl h2
        · exact Or.inr (List.mem_cons_of_mem _ h2)
    · rw [if_neg hba] at h
      rcases List.mem_cons.1 h with h1 | h1
      · right
        rw [h1]
        exact List.mem_cons_self _ _
      · rcases ih h1 with h2 | h2
        · exact Or.inl h2
        · exact Or.inr (List.mem_cons_of_mem _ h2)

theorem mem_udpErase {m : UdpMap} {a : Addr} {p : Addr × NetworkConnStateUDP}
    (h : p ∈ udpErase m a) : p ∈ m := by
  induction m with
  | nil => simp [udpErase] at h
  | cons q rest ih =>
    obtain ⟨b, t⟩ := q
    simp only [udpErase] at h
    by_cases hba : b = a
    · rw [if_pos hba] at h
      exact List.mem_cons_of_mem _ (ih h)
    · rw [if_neg hba] at h
      rcases List.mem_cons.1 h with h1 | h1
      · rw [h1]
        exact List.mem_cons_self _ _
      · exact List.mem_cons_of_mem _ (ih h1)

theorem udpFind_udpUpdate_self {m : UdpMap} {a : Addr} {s : NetworkConnStateUDP}
    (t : NetworkConnStateUDP) (h : udpFind m a = some s) :
    udpFind (udpUpdate m a t) a = some t := by
  induction m with
  | nil => simp [udpFind] at h
  | cons p rest ih =>
    obtain ⟨b, u⟩ := p
    simp only [udpFind] at h
    simp only [udpUpdate]
    by_cases hab : a = b
    · subst hab
      rw [if_pos rfl]
      simp [udpFind]
    · have hba : ¬(b = a) := fun hh => hab hh.symm
      rw [if_neg hab] at h
      rw [if_neg hba]
      simp only [udpFind]
      rw [if_neg hab]
      exact ih h

theorem udpFind_udpErase_self (m : UdpMap) (a : Addr) :
    udpFind (udpErase m a) a = none := by
  induction m with
  | nil => simp [udpErase, udpFind]
  | cons p rest ih =>
    obtain ⟨b, t⟩ := p
    simp only [udpErase]
    by_cases hba : b = a
    · rw [if_pos hba]
      exact ih
    · rw [if_neg hba]
      simp only [udpFind]
      rw [if_neg (fun hh => hba hh.symm)]
      exact ih

theorem udpFind_udpErase_ne {b a : Addr} (hne : b ≠ a) (m : UdpMap) :
    udpFind (udpErase m a) b = udpFind m b := by
  induction m with
  | nil => simp [udpErase]
  | cons p rest ih =>
    obtain ⟨c, t⟩ := p
    simp only [udpErase, udpFind]
    by_cases hca : c = a
    · subst hca
      rw [if_pos rfl, ih, if_neg hne]
    · rw [if_neg hca]
      simp only [udpFind]
      by_cases hbc : b = c
      · rw [if_pos hbc, if_pos hbc]
      · rw [if_neg hbc, if_neg hbc]
        exact ih

theorem readLoop_append_mismatch (peer : Addr)
    (pre tail : List (Except NetErr (Nat × Option Addr))) :
    (∀ e ∈ pre, ∃ c s, e = Except.ok (c, s) ∧ s ≠ some peer) →
    readLoop peer (pre ++ tail) = readLoop peer tail := by
  induction pre with
  | nil => intro _; rfl
  | cons e t ih =>
    intro hmis
    obtain ⟨c, s, he, hs⟩ := hmis e (List.mem_cons_self _ _)
    subst he
    simp only [List.cons_append, readLoop]
    rw [if_neg hs]
    exact ih (fun x hx => hmis x (List.mem_cons_of_mem _ hx))

/-! ## The claims -/

/-- C2: every actor step (bind, unbind, send, receive) preserves the
per-address invariant that at most one of the two queues (blocked reads,
blocked writes) is non-empty: an arriving request is matched against the
opposite queue when that queue is non-empty and is enqueued only when the
opposite queue is empty. -/
theorem networkStep_preserves_queue_invariant (m : UdpMap) (req : NetworkRequest)
    (h : mapInvariant m) : mapInvariant (networkStep m req).1 := by
  cases req with
  | newConnUDP req =>
    cases hf : udpFind m req.localAddr with
    | some s => simpa [networkStep, onNewConnUDP, hf] using h
    | none =>
      intro p hp
      simp only [networkStep, onNewConnUDP, hf, udpInsert] at hp
      rcases List.mem_cons.1 hp with h1 | h1
      · rw [h1]
        exact Or.inl rfl
      · exact h p h1
  | deleteConnUDP req =>
    cases hf : udpFind m req.localAddr with
    | none => simpa [networkStep, onDeleteConnUDP, hf] using h
    | some s =>
      intro p hp
      simp only [networkStep, onDeleteConnUDP, hf] at hp
      exact h p (mem_udpErase hp)
  | readUDP req =>
    cases hf : udpFind m req.localAddr with
    | none => simpa [networkStep, onReadUDP, hf] using h
    | some source =>
      cases hw : source.blockedWrites with
      | nil =>
        intro p hp
        simp only [networkStep, onReadUDP, hf, hw] at hp
        rcases mem_udpUpdate hp with h2 | h2
        · rw [h2]
          exact Or.inr rfl
        · exact h p h2
      | cons w rest =>
        intro p hp
        simp only [networkStep, onReadUDP, hf, hw] at hp
        rcases mem_udpUpdate hp with h2 | h2
        · rcases h _ (udpFind_mem hf) with hr | hwr
          · rw [h2]
            exact Or.inl hr
          · rw [hw] at hwr
            cases hwr
        · exact h p h2
  | writeUDP req =>
    cases hf : udpFind m req.destAddr with
    | none => simpa [networkStep, onWriteUDP, hf] using h
    | some dest =>
      cases hr : dest.blockedReads with
      | nil =>
        intro p hp
        simp only [networkStep, onWriteUDP, hf, hr] at hp
        rcases mem_udpUpdate hp with h2 | h2
        · rw [h2]
          exact Or.inl rfl
        · exact h p h2
      | cons r rest =>
        intro p hp
        simp only [networkStep, onWriteUDP, hf, hr] at hp
        rcases mem_udpUpdate hp with h2 | h2
        · rcases h _ (udpFind_mem hf) with hrd | hwr
          · rw [hr] at hrd
            cases hrd
          · rw [h2]
            exact Or.inr hwr
        · exact h p h2

theorem networkStep_preserves_queue_invariant_witness :
    mapInvariant [(0, ⟨[], []⟩)] ∧
    mapInvariant (networkStep [(0, ⟨[], []⟩)] (NetworkRequest.writeUDP ⟨0, 0, [1, 2], 3⟩)).1 :=
  have h0 : mapInvariant [(0, ⟨[], []⟩)] := by
    intro p hp
    rw [List.mem_singleton] at hp
    rw [hp]
    exact Or.inl rfl
  ⟨h0, networkStep_preserves_queue_invariant _ _ h0⟩

/-- C5: a send whose destination has no address state resolves successfully
and immediately, leaves the actor map (and hence every queue) unchanged, and
its payload is stored nowhere, so no receive request can ever observe it. -/
theorem send_to_unbound_is_silent_drop (m : UdpMap) (w : NetworkWriteUDP)
    (h : udpFind m w.destAddr = none) :
    networkStep m (NetworkRequest.writeUDP w) = (m, [Resolution.ackWrite w.id]) := by
  simp [networkStep, onWriteUDP, h]

theorem send_to_unbound_is_silent_drop_witness :
    udpFind [] (1 : Addr) = none ∧
    networkStep [] (NetworkRequest.writeUDP ⟨0, 1, [2], 3⟩) = ([], [Resolution.ackWrite 0]) :=
  ⟨rfl, send_to_unbound_is_silent_drop [] ⟨0, 1, [2], 3⟩ rfl⟩

/-- C6: binding `a` when no state exists creates an empty address state and
succeeds; binding when a state already exists fails with the bind-collision
error (`syscall.EADDRNOTAVAIL`, the spec's `AddressInUse`) and the map is
unchanged; in particular binding `a` twice without an intervening unbind fails
on the second attempt. -/
theorem bind_creates_state_and_rebind_fails (m₁ m₂ : UdpMap) (a : Addr)
    (p : Option Addr) (s : NetworkConnStateUDP)
    (h₁ : udpFind m₁ a = none) (h₂ : udpFind m₂ a = some s) :
    (newUDPConn false m₁ a p).2 = Except.ok ⟨a, p⟩ ∧
    udpFind (newUDPConn false m₁ a p).1 a = some ⟨[], []⟩ ∧
    newUDPConn false (newUDPConn false m₁ a p).1 a p
      = ((newUDPConn false m₁ a p).1, Except.error NetErr.EADDRNOTAVAIL) ∧
    newUDPConn false m₂ a p = (m₂, Except.error NetErr.EADDRNOTAVAIL) := by
  have hstep : newUDPConn false m₁ a p = (udpInsert m₁ a ⟨[], []⟩, Except.ok ⟨a, p⟩) := by
    simp [newUDPConn, onNewConnUDP, h₁]
  have hfind : udpFind (udpInsert m₁ a ⟨[], []⟩) a = some ⟨[], []⟩ := by
    simp [udpInsert, udpFind]
  refine ⟨?_, ?_, ?_, ?_⟩
  · rw [hstep]
  · rw [hstep]
    exact hfind
  · rw [hstep]
    simp [newUDPConn, onNewConnUDP, hfind]
  · simp [newUDPConn, onNewConnUDP, h₂]

theorem bind_creates_state_and_rebind_fails_witness :
    udpFind [] (0 : Addr) = none ∧
    udpFind [((0 : Addr), (⟨[], []⟩ : NetworkConnStateUDP))] (0 : Addr) = some ⟨[], []⟩ ∧
    ((newUDPConn false [] 0 none).2 = Except.ok ⟨0, none⟩ ∧
     udpFind (newUDPConn false [] 0 none).1 0 = some ⟨[], []⟩ ∧
     newUDPConn false (newUDPConn false [] 0 none).1 0 none
       = ((newUDPConn false [] 0 none).1, Except.error NetErr.EADDRNOTAVAIL) ∧
     newUDPConn false [(0, ⟨[], []⟩)] 0 none
       = ([(0, ⟨[], []⟩)], Except.error NetErr.EADDRNOTAVAIL)) :=
  ⟨rfl, rfl, bind_creates_state_and_rebind_fails [] [(0, ⟨[], []⟩)] 0 none ⟨[], []⟩ rfl rfl⟩

/-- C8: unbinding a bound address removes exactly its address state (lookups
at other addresses are unchanged) and produces only the unbind
acknowledgement: no parked send or receive request in its queues is resolved
or woken; unbinding an unbound address fails with `EBADF` and changes
nothing. -/
theorem unbind_removes_state_without_waking (m₁ m₂ : UdpMap) (a b : Addr)
    (s : NetworkConnStateUDP) (h₁ : udpFind m₁ a = some s) (h₂ : udpFind m₂ a = none)
    (hb : b ≠ a) :
    networkStep m₁ (NetworkRequest.deleteConnUDP ⟨a⟩)
      = (udpErase m₁ a, [Resolution.ackDeleteConn none]) ∧
    udpFind (udpErase m₁ a) a = none ∧
    udpFind (udpErase m₁ a) b = udpFind m₁ b ∧
    networkStep m₂ (NetworkRequest.deleteConnUDP ⟨a⟩)
      = (m₂, [Resolution.ackDeleteConn (some NetErr.EBADF)]) :=
  ⟨by simp [networkStep, onDeleteConnUDP, h₁],
   udpFind_udpErase_self m₁ a,
   udpFind_udpErase_ne hb m₁,
   by simp [networkStep, onDeleteConnUDP, h₂]⟩

theorem unbind_removes_state_without_waking_witness :
    udpFind [(0, ⟨[⟨7, [0], 0⟩], []⟩)] (0 : Addr) = some ⟨[⟨7, [0], 0⟩], []⟩ ∧
    udpFind [] (0 : Addr) = none ∧
    (1 : Addr) ≠ 0 ∧
    (networkStep [(0, ⟨[⟨7, [0], 0⟩], []⟩)] (NetworkRequest.deleteConnUDP ⟨0⟩)
       = (udpErase [(0, ⟨[⟨7, [0], 0⟩], []⟩)] 0, [Resolution.ackDeleteConn none]) ∧
     udpFind (udpErase [(0, ⟨[⟨7, [0], 0⟩], []⟩)] 0) 0 = none ∧
     udpFind (udpErase [(0, ⟨[⟨7, [0], 0⟩], []⟩)] 0) 1 = udpFind [(0, ⟨[⟨7, [0], 0⟩], []⟩)] 1 ∧
     networkStep [] (NetworkRequest.deleteConnUDP ⟨0⟩)
       = ([], [Resolution.ackDeleteConn (some NetErr.EBADF)])) :=
  ⟨rfl, rfl, by decide,
   unbind_removes_state_without_waking [(0, ⟨[⟨7, [0], 0⟩], []⟩)] [] 0 1 ⟨[⟨7, [0], 0⟩], []⟩
     rfl rfl (by decide)⟩

/-- C10: the three failing actor operations are read-only on the address map:
a bind hitting an existing state, a receive at an unbound address, and an
unbind of an unbound address each return their error with the map (every
entry and every queue) exactly as before. -/
theorem failing_ops_leave_map_unchanged (m₁ m₂ m₃ : UdpMap) (a₁ a₃ : Addr)
    (s₁ : NetworkConnStateUDP) (r : NetworkReadUDP)
    (h₁ : udpFind m₁ a₁ = some s₁) (h₂ : udpFind m₂ r.localAddr = none)
    (h₃ : udpFind m₃ a₃ = none) :
    onNewConnUDP m₁ ⟨a₁⟩ = (m₁, some NetErr.EADDRNOTAVAIL) ∧
    onReadUDP m₂ r = (m₂, [Resolution.ackRead r.id 0 r.buffer none (some NetErr.EBADF)]) ∧
    onDeleteConnUDP m₃ ⟨a₃⟩ = (m₃, some NetErr.EBADF) :=
  ⟨by simp [onNewConnUDP, h₁], by simp [onReadUDP, h₂], by simp [onDeleteConnUDP, h₃]⟩

theorem failing_ops_leave_map_unchanged_witness :
    udpFind [(0, ⟨[], []⟩)] (0 : Addr) = some ⟨[], []⟩ ∧
    udpFind [] (NetworkReadUDP.mk 4 [0] 2).localAddr = none ∧
    udpFind [] (3 : Addr) = none ∧
    (onNewConnUDP [(0, ⟨[], []⟩)] ⟨0⟩ = ([(0, ⟨[], []⟩)], some NetErr.EADDRNOTAVAIL) ∧
     onReadUDP [] ⟨4, [0], 2⟩ = ([], [Resolution.ackRead 4 0 [0] none (some NetErr.EBADF)]) ∧
     onDeleteConnUDP [] ⟨3⟩ = ([], some NetErr.EBADF)) :=
  ⟨rfl, rfl, rfl,
   failing_ops_leave_map_unchanged [(0, ⟨[], []⟩)] [] [] 0 3 ⟨[], []⟩ ⟨4, [0], 2⟩ rfl rfl rfl⟩

/-- C3: a matched send/receive pair copies exactly
`min (payload.length) (buffer.length)` bytes, records the sender, and resolves
both requests successfully: after binding `A` and `B`, a write from `A` to `B`
with payload `P` followed by a read at `B` with buffer `buf` resolves the read
with count `min buf.length P.length` and sender `A`; with `buf` at least as
long as `P` the count is `P.length` and the buffer's first `P.length` bytes
equal `P`; with a shorter buffer the count is `buf.length`, the buffer holds
the prefix of `P`, and nothing remains queued at `B` (the excess is lost). -/
theorem matched_pair_copies_min_bytes (A B idW idR : Nat) (P buf : List Nat)
    (h : A ≠ B) : roundTripSpec A B idW idR P buf := by
  have hBA : ¬(B = A) := fun hh => h hh.symm
  simp only [roundTripSpec]
  refine ⟨?_, ?_, ?_, ?_, ?_⟩
  · simp [onNewConnUDP, onWriteUDP, udpFind, udpInsert, udpUpdate, hBA, h]
  · simp [onNewConnUDP, onWriteUDP, onReadUDP, udpFind, udpInsert, udpUpdate,
      finishReadWrite, hBA, h]
  · simp [onNewConnUDP, onWriteUDP, onReadUDP, udpFind, udpInsert, udpUpdate,
      finishReadWrite, hBA, h]
  · intro hle
    have hc : copyCount buf P = P.length := min_eq_right hle
    refine ⟨hc, ?_⟩
    unfold copyInto
    rw [hc, List.take_length P]
    exact List.take_left _ _
  · intro hge
    have hc : copyCount buf P = buf.length := min_eq_left hge
    refine ⟨hc, ?_⟩
    unfold copyInto
    rw [hc, List.drop_length buf, List.append_nil]

theorem matched_pair_copies_min_bytes_witness :
    (1 : Nat) ≠ 2 ∧ roundTripSpec 1 2 0 1 [10, 20, 30] [0, 0, 0, 0] :=
  ⟨by decide, matched_pair_copies_min_bytes 1 2 0 1 [10, 20, 30] [0, 0, 0, 0] (by decide)⟩

/-- C4: matching per destination address is strict FIFO: with `dst` bound and
both queues empty, if writes `w1` then `w2` targeting `dst` are processed
before any read for `dst`, the next two reads processed for `dst` resolve
with `w1`'s payload and sender first and `w2`'s second. -/
theorem fifo_matching (m : UdpMap) (dst : Addr) (w1 w2 : NetworkWriteUDP)
    (r1 r2 : NetworkReadUDP) (hfind : udpFind m dst = some ⟨[], []⟩)
    (hw1 : w1.destAddr = dst) (hw2 : w2.destAddr = dst)
    (hr1 : r1.localAddr = dst) (hr2 : r2.localAddr = dst) :
    fifoSpec m w1 w2 r1 r2 := by
  have e1 : onWriteUDP m w1 = (udpUpdate m dst ⟨[], [w1]⟩, []) := by
    simp [onWriteUDP, hw1, hfind]
  have f1 : udpFind (udpUpdate m dst ⟨[], [w1]⟩) dst = some ⟨[], [w1]⟩ :=
    udpFind_udpUpdate_self _ hfind
  have e2 : onWriteUDP (udpUpdate m dst ⟨[], [w1]⟩) w2
      = (udpUpdate (udpUpdate m dst ⟨[], [w1]⟩) dst ⟨[], [w1, w2]⟩, []) := by
    simp [onWriteUDP, hw2, f1]
  have f2 : udpFind (udpUpdate (udpUpdate m dst ⟨[], [w1]⟩) dst ⟨[], [w1, w2]⟩) dst
      = some ⟨[], [w1, w2]⟩ :=
    udpFind_udpUpdate_self _ f1
  have e3 : onReadUDP (udpUpdate (udpUpdate m dst ⟨[], [w1]⟩) dst ⟨[], [w1, w2]⟩) r1
      = (udpUpdate (udpUpdate (udpUpdate m dst ⟨[], [w1]⟩) dst ⟨[], [w1, w2]⟩) dst ⟨[], [w2]⟩,
         finishReadWrite r1 w1) := by
    simp [onReadUDP, hr1, f2]
  have f3 : udpFind
      (udpUpdate (udpUpdate (udpUpdate m dst ⟨[], [w1]⟩) dst ⟨[], [w1, w2]⟩) dst ⟨[], [w2]⟩) dst
      = some ⟨[], [w2]⟩ :=
    udpFind_udpUpdate_self _ f2
  have e4 : onReadUDP
      (udpUpdate (udpUpdate (udpUpdate m dst ⟨[], [w1]⟩) dst ⟨[], [w1, w2]⟩) dst ⟨[], [w2]⟩) r2
      = (udpUpdate
           (udpUpdate (udpUpdate (udpUpdate m dst ⟨[], [w1]⟩) dst ⟨[], [w1, w2]⟩) dst ⟨[], [w2]⟩)
           dst ⟨[], []⟩,
         finishReadWrite r2 w2) := by
    simp [onReadUDP, hr2, f3]
  simp [fifoSpec, e1, e2, e3, e4, finishReadWrite]

theorem fifo_matching_witness :
    udpFind [((5 : Addr), (⟨[], []⟩ : NetworkConnStateUDP))] 5 = some ⟨[], []⟩ ∧
    fifoSpec [(5, ⟨[], []⟩)] ⟨0, 5, [1], 9⟩ ⟨1, 5, [2], 9⟩ ⟨2, [0], 5⟩ ⟨3, [0], 5⟩ :=
  ⟨rfl, fifo_matching [(5, ⟨[], []⟩)] 5 ⟨0, 5, [1], 9⟩ ⟨1, 5, [2], 9⟩ ⟨2, [0], 5⟩ ⟨3, [0], 5⟩
    rfl rfl rfl rfl rfl⟩

/-- C7: Network shutdown is idempotent: the first `Close` returns no error
and raises the shutdown signal, a second `Close` performs no action and
returns no error; and with the Network closed, a newly issued bind, unbind,
send or receive takes the shutdown branch of its select instead of being
processed: bind, send and receive fail `ErrClosed` and the unbind request is
abandoned with the map untouched. -/
theorem network_close_idempotent_and_requests_fail (n : NetworkState)
    (m : UdpMap) (a : Addr) (p : Option Addr) (pre post : ConnSignals) (ack : ReadAck)
    (dataLen : Nat) (ackErr : Option NetErr)
    (hn : n.onceDone = false) (hpre : pre.netClosed = true) :
    shutdownSpec n m a p pre post ack dataLen ackErr := by
  refine ⟨?_, ?_, ?_, ?_, ?_, ?_, ?_⟩
  · simp [networkClose, hn]
  · simp [networkClose, hn]
  · simp [networkClose, hn]
  · simp [newUDPConn]
  · simp [connClose]
  · by_cases hc : pre.connClosed <;> simp [commonRead, hc, hpre]
  · by_cases hc : pre.connClosed <;> simp [commonWrite, hc, hpre]

theorem network_close_idempotent_and_requests_fail_witness :
    NetworkState.onceDone ⟨false, false, []⟩ = false ∧
    ConnSignals.netClosed ⟨false, true, false, false⟩ = true ∧
    shutdownSpec ⟨false, false, []⟩ [] 0 none ⟨false, true, false, false⟩
      ⟨false, true, false, false⟩ ⟨0, none, none⟩ 3 none :=
  ⟨rfl, rfl,
   network_close_idempotent_and_requests_fail ⟨false, false, []⟩ [] 0 none
     ⟨false, true, false, false⟩ ⟨false, true, false, false⟩ ⟨0, none, none⟩ 3 none rfl rfl⟩

/-- C9: `Read` on a handle with no configured peer fails `ENOTCONN` whatever
the actor would answer (the request stream is never consumed); on a connected
handle it discards every successful datagram whose recorded sender differs
from the peer and returns the count of the first datagram whose sender is the
peer, or the first error (deadline, handle close, Network close) as is. -/
theorem connected_read_filters_by_peer (results : List (Except NetErr (Nat × Option Addr)))
    (peer : Addr) (pre rest rest' : List (Except NetErr (Nat × Option Addr)))
    (n : Nat) (err : NetErr)
    (hmis : ∀ e ∈ pre, ∃ c s, e = Except.ok (c, s) ∧ s ≠ some peer) :
    connRead none results = some (Except.error NetErr.ENOTCONN) ∧
    connRead (some peer) (pre ++ Except.ok (n, some peer) :: rest) = some (Except.ok n) ∧
    connRead (some peer) (pre ++ Except.error err :: rest') = some (Except.error err) := by
  refine ⟨rfl, ?_, ?_⟩
  · simp only [connRead]
    rw [readLoop_append_mismatch peer pre _ hmis]
    simp [readLoop]
  · simp only [connRead]
    rw [readLoop_append_mismatch peer pre _ hmis]
    rfl

theorem connected_read_filters_by_peer_witness :
    (∀ e ∈ ([Except.ok (5, some 2)] : List (Except NetErr (Nat × Option Addr))),
       ∃ c s, e = Except.ok (c, s) ∧ s ≠ some (1 : Addr)) ∧
    (connRead none ([] : List (Except NetErr (Nat × Option Addr)))
       = some (Except.error NetErr.ENOTCONN) ∧
     connRead (some 1)
       (([Except.ok (5, some 2)] : List (Except NetErr (Nat × Option Addr)))
         ++ Except.ok (7, some 1) :: [])
       = some (Except.ok 7) ∧
     connRead (some 1)
       (([Except.ok (5, some 2)] : List (Except NetErr (Nat × Option Addr)))
         ++ Except.error NetErr.ErrClosed :: [])
       = some (Except.error NetErr.ErrClosed)) :=
  have hmis : ∀ e ∈ ([Except.ok (5, some 2)] : List (Except NetErr (Nat × Option Addr))),
      ∃ c s, e = Except.ok (c, s) ∧ s ≠ some (1 : Addr) := by
    intro e he
    rw [List.mem_singleton] at he
    exact ⟨5, some 2, he, by decide⟩
  ⟨hmis, connected_read_filters_by_peer [] 1 [Except.ok (5, some 2)] [] [] 7
     NetErr.ErrClosed hmis⟩

/-- C1: the deadline `commonWrite` actually races is the READ deadline, not
the write deadline.  With the read deadline already fired (set to 3, observed
at 5) and the write deadline not fired (set to 100), a write fails
`ErrDeadlineExceeded`; with only the write deadline fired (set to 3, observed
at 5, read deadline disabled), the write succeeds and returns `len(data)`.
This contradicts the claim that the write deadline (the timer updated by
`SetWriteDeadline`/`SetDeadline`) governs blocked writes: `commonWrite`
selects on `c.readDeadline.wait()` in both of its selects and never consults
the write deadline. -/
theorem commonWrite_races_read_deadline_not_write_deadline :
    commonWrite
      (connSignalsAt false false (setWriteDeadline (setReadDeadline ⟨none, none⟩ (some 3)) (some 100)) 5)
      (connSignalsAt false false (setWriteDeadline (setReadDeadline ⟨none, none⟩ (some 3)) (some 100)) 5)
      7 none = Except.error NetErr.ErrDeadlineExceeded ∧
    commonWrite
      (connSignalsAt false false (setWriteDeadline (setReadDeadline ⟨none, none⟩ none) (some 3)) 5)
      (connSignalsAt false false (setWriteDeadline (setReadDeadline ⟨none, none⟩ none) (some 3)) 5)
      7 none = Except.ok 7 :=
  ⟨rfl, rfl⟩

end Netemlite
